import Mathlib

/-!
Verification development for the AnkiWeb deck-import core.

The definitions below are a shallow embedding of the JavaScript source:
the template rendering engine (`processAnkiTemplate` and its steps), the
card status derivation (`getCardStatus`), the archive validator
(`validateApkgFile`), the query layer (`executeQuery`), and the import
operation's resource lifecycle (`loadAndParseDeck`).  Strings are modelled
as `List Char` internally (JS strings are sequences of UTF-16 code units;
all data relevant here is ASCII, where the two views agree).  External
library boundaries (JSZip, `JSON.parse`, sql.js) are modelled as explicit
parameters, matching the spec's "external collaborator" boundaries.
-/

/-- Case-insensitive character equality, modelling a JS regex `i` flag on
ASCII data (JS canonicalizes case; on ASCII this is lower-case folding). -/
def lcEq (a b : Char) : Bool := a.toLower == b.toLower

/-- `begEq pat s` is true when `pat` occurs literally (case-sensitively) at
the start of `s`. -/
def begEq : List Char → List Char → Bool
  | [], _ => true
  | _ :: _, [] => false
  | a :: as, b :: bs => a == b && begEq as bs

/-- `containsSeg pat s`: `pat` occurs contiguously somewhere in `s`
(case-sensitive).  Used to state "the output contains the value
byte-for-byte". -/
def containsSeg (pat : List Char) : List Char → Bool
  | [] => begEq pat []
  | c :: cs => begEq pat (c :: cs) || containsSeg pat cs

/-- Case-insensitive version of `begEq`: `pat` matches at the start of `s`
under a JS `i`-flag regex built from the escaped literal `pat`. -/
def isPrefixOfCI : List Char → List Char → Bool
  | [], _ => true
  | _ :: _, [] => false
  | a :: as, b :: bs => lcEq a b && isPrefixOfCI as bs

/-- Case-insensitive occurrence test: some position of `s` matches `pat`. -/
def containsCI (pat : List Char) : List Char → Bool
  | [] => isPrefixOfCI pat []
  | c :: cs => isPrefixOfCI pat (c :: cs) || containsCI pat cs

/-- ECMA-262 `GetSubstitution`, as applied by JS `String.replace` to a
string replacement when the regex has neither capture groups nor named
groups — the case for both regexes built here (the escaped field
placeholder and the `FrontSide` literal).  In the replacement text,
a dollar followed by another dollar yields one dollar; dollar-ampersand
yields the matched substring; dollar-backtick (code 96) yields the
portion of the subject before the match; dollar-apostrophe (code 39)
yields the portion after the match; a dollar followed by anything else
(digits, an angle bracket, ordinary text, or nothing) is literal, because
there are no capture groups and no named groups to refer to. -/
def getSubstitution (matched pre post : List Char) : List Char → List Char
  | [] => []
  | c :: rest =>
    if c = '$' then
      match rest with
      | [] => ['$']
      | '$' :: rest2 => '$' :: getSubstitution matched pre post rest2
      | '&' :: rest2 => matched ++ getSubstitution matched pre post rest2
      | d :: rest2 =>
        if d = Char.ofNat 96 then pre ++ getSubstitution matched pre post rest2
        else if d = Char.ofNat 39 then post ++ getSubstitution matched pre post rest2
        else '$' :: d :: getSubstitution matched pre post rest2
    else c :: getSubstitution matched pre post rest

/-- Fuel-driven worker for `replaceCI`.  Models
`str.replace(new RegExp(escapedLiteral, 'gi'), val)` from
`processAnkiTemplate` (part_005 lines 97-100 and 105): leftmost,
non-overlapping, case-insensitive literal matches; at each match the
emitted text is `getSubstitution` applied to the replacement string with
the actual matched slice (which may differ in case from the pattern) and
the original subject's surrounding portions, exactly as JS
`String.replace` does for a string replacement; the emitted text is not
rescanned.  `pre` accumulates the original subject before the current
position. -/
def replaceCIFuel (pat val : List Char) : Nat → List Char → List Char → List Char
  | _, _, [] => []
  | 0, _, s => s
  | fuel + 1, pre, c :: cs =>
    if isPrefixOfCI pat (c :: cs) then
      getSubstitution ((c :: cs).take pat.length) pre ((c :: cs).drop pat.length) val ++
        replaceCIFuel pat val fuel (pre ++ (c :: cs).take pat.length) ((c :: cs).drop pat.length)
    else
      c :: replaceCIFuel pat val fuel (pre ++ [c]) cs

/-- Global case-insensitive literal replacement (see `replaceCIFuel`).
The patterns arising in the source (`{{fieldName}}`, `{{FrontSide}}`) are
never empty; the guard only fixes totality. -/
def replaceCI (pat val s : List Char) : List Char :=
  if pat.isEmpty then s else replaceCIFuel pat val s.length [] s

/-- Match of the cloze regex `\{\{c(\d+)::(.*?)(?:::(.*?))?\}\}` at the
head of `s`, after the mandatory `N::` part has been consumed: finds the
lazily-shortest text `t` (no newline, `.` does not match `\n` without the
`s` flag) such that either `t` is followed by `::`, a lazily-shortest hint
and `}}` (the optional group is greedy, so this branch is tried first), or
`t` is followed directly by `}}`.  Returns the captured text and the
remainder of the input after the match. -/
def findClozeEnd (u : List Char) : Option (List Char × List Char) :=
  (List.range (u.length + 1)).findSome? fun k =>
    let t := u.take k
    if t.contains '\n' then none
    else
      let v := u.drop k
      let hintBranch :=
        if begEq [':', ':'] v then
          let w := v.drop 2
          (List.range (w.length + 1)).findSome? fun j =>
            let h := w.take j
            if h.contains '\n' then none
            else if begEq ['}', '}'] (w.drop j) then some (w.drop (j + 2))
            else none
        else none
      match hintBranch with
      | some rest => some (t, rest)
      | none => if begEq ['}', '}'] v then some (t, v.drop 2) else none

/-- Match of the full cloze regex at the head of `s`: literal `{{c`
(case-sensitive; the regex has no `i` flag), one or more digits, `::`,
then `findClozeEnd`. -/
def matchCloze (s : List Char) : Option (List Char × List Char) :=
  match s with
  | '{' :: '{' :: 'c' :: t =>
    let ds := t.takeWhile (·.isDigit)
    if ds.isEmpty then none
    else
      let t1 := t.drop ds.length
      if begEq [':', ':'] t1 then findClozeEnd (t1.drop 2) else none
  | _ => none

/-- The replacement emitted for a cloze match (part_005 line 114): a blue
styled reveal of the captured text; the digits and the hint are
discarded. -/
def clozeSpan (text : List Char) : List Char :=
  "<span style=\"color: blue; font-weight: bold;\">[".toList ++ text ++ "]</span>".toList

/-- Global scan for the cloze replacement (part_005 line 113): leftmost
non-overlapping matches, continuing after each match; replacement text is
not rescanned. -/
def replaceClozeFuel : Nat → List Char → List Char
  | _, [] => []
  | 0, s => s
  | fuel + 1, c :: cs =>
    match matchCloze (c :: cs) with
    | some (text, rest) => clozeSpan text ++ replaceClozeFuel fuel rest
    | none => c :: replaceClozeFuel fuel cs

/-- Match of `\{\{[^}]+\}\}` at the head of `s`: `{{`, a maximal nonempty
run of non-`}` characters, then `}}`.  (The character class is greedy and
cannot backtrack usefully, so the maximal run followed by `}}` is the only
possible match.)  Returns the remainder after the match. -/
def matchMissingField (s : List Char) : Option (List Char) :=
  match s with
  | '{' :: '{' :: t =>
    let run := t.takeWhile (· != '}')
    if run.isEmpty then none
    else if begEq ['}', '}'] (t.drop run.length) then some (t.drop (run.length + 2))
    else none
  | _ => none

/-- The visible missing-field marker (part_005 line 118). -/
def missingFieldSpan : List Char :=
  "<span style=\"color: red; font-size: 0.8em;\">[Missing Field]</span>".toList

/-- Global scan replacing every remaining `{{...}}` placeholder with the
missing-field marker (part_005 line 118). -/
def replaceMissingFuel : Nat → List Char → List Char
  | _, [] => []
  | 0, s => s
  | fuel + 1, c :: cs =>
    match matchMissingField (c :: cs) with
    | some rest => missingFieldSpan ++ replaceMissingFuel fuel rest
    | none => c :: replaceMissingFuel fuel cs

/-- The placeholder string `{{fieldName}}` built at part_005 line 97. -/
def fieldPlaceholder (name : String) : List Char :=
  "\x7b\x7b".toList ++ name.toList ++ "\x7d\x7d".toList

/-- Step 1 of `processAnkiTemplate` (part_005 lines 90-101): for each
field name, in order, replace all case-insensitive occurrences of
`{{fieldName}}` with the corresponding field value (`fields[index] || ''`
defaults a missing slot to the empty string; the value is subject to JS
replacement-string processing, see `getSubstitution`). -/
def substituteFields (fieldNames fields : List String) (t : List Char) : List Char :=
  fieldNames.enum.foldl
    (fun processed p => replaceCI (fieldPlaceholder p.2) (fields.getD p.1 "").toList processed)
    t

/-- The content component of `processAnkiTemplate` (part_005 lines
83-124).  Step 1 substitutes fields; step 2 replaces `{{FrontSide}}`
case-insensitively with `frontContent` when the latter is nonempty (JS
truthiness of a string); step 4 resolves cloze tokens; step 5 replaces
every remaining `{{...}}` placeholder with the missing-field marker.  The
source's steps 1 and 3 additionally collect `mediaFound` via
`detectMediaReferences`; that collection never modifies `processed`, so
the returned content is unaffected and the media list is not modelled
here. -/
def processAnkiTemplate (template : String) (fields fieldNames : List String)
    (frontContent : String) : String :=
  if template = "" then ""
  else
    let step1 := substituteFields fieldNames fields template.toList
    let step2 :=
      if frontContent = "" then step1
      else replaceCI "\x7b\x7bFrontSide\x7d\x7d".toList frontContent.toList step1
    let step4 := replaceClozeFuel step2.length step2
    let step5 := replaceMissingFuel step4.length step4
    String.mk step5

/-- `getCardStatus` (part_005 lines 508-518): converts the raw `queue`
integer into a human-readable status; the default branch preserves the
numeric value, as JS `Unknown (${queue})`. -/
def getCardStatus (queue : Int) : String :=
  if queue = 0 then "New"
  else if queue = 1 then "Learning"
  else if queue = 2 then "Review"
  else if queue = -1 then "Suspended"
  else if queue = -2 then "Buried (scheduler)"
  else if queue = -3 then "Buried (user)"
  else "Unknown (" ++ toString queue ++ ")"

/-- JS `String.prototype.trim()` on ASCII data: whitespace stripped from
both ends. -/
def jsTrim (s : List Char) : List Char :=
  ((s.dropWhile Char.isWhitespace).reverse.dropWhile Char.isWhitespace).reverse

/-- JS `String.prototype.endsWith`. -/
def endEq (pat s : List Char) : Bool := begEq pat.reverse s.reverse

/-- One entry of the ZIP-like archive, as JSZip exposes it: a name, a
directory flag, and the entry content, readable either as text
(`async('text')`, used for the `media` manifest) or as bytes
(`async('arraybuffer')`, used for the database). -/
structure ZipEntry where
  name : String
  isDir : Bool
  text : String
  bytes : List Nat
deriving DecidableEq

/-- The loaded archive: the ordered entry list (`zipContent.files`). -/
structure Archive where
  entries : List ZipEntry
deriving DecidableEq

/-- The host's `JSON.parse` at the boundary, abstracted: `none` models a
thrown `SyntaxError`; a parsed object or array is abstracted to its
key/value pairs in order (`Object.keys` = the keys, `Object.values` = the
values; for an array the keys are the indices). -/
def JsonParse := String → Option (List (String × String))

/-- Outcome of the sql.js step (external engine, assumed correct):
`loadDatabase` returned null, an exception was thrown, or the database
loaded and `getTableNames` returned the given table names. -/
inductive SqlOutcome where
  | loadNull
  | thrown (msg : String)
  | loaded (tables : List String)
deriving DecidableEq

/-- The embedded database engine at the adapter boundary, as a function of
the extracted database bytes. -/
def SqlEngine := List Nat → SqlOutcome

/-- The programmatically distinguishable failure kinds of
`validateApkgFile` (part_006), one per early-return site. -/
inductive VError where
  | zipError (msg : String)
  | missingDatabase
  | missingMedia
  | mediaReferenced (files : List String)
  | mediaManifest (count : Nat)
  | dbAccess
  | emptyDatabase
  | invalidHeader
  | sqlLoadFailed
  | sqlThrown (msg : String)
  | missingTables (tables : List String)
deriving DecidableEq

/-- The human-readable `error` string the source attaches to each failing
return (part_006). -/
def errorMessage : VError → String
  | .zipError m => "File validation failed: " ++ m
  | .missingDatabase => "Invalid .apkg file: Missing collection database"
  | .missingMedia => "Invalid .apkg file: Missing media information"
  | .mediaReferenced files =>
      "Deck contains " ++ toString files.length ++ " referenced media file(s): "
        ++ String.intercalate ", " (files.take 3)
        ++ (if files.length > 3 then "..." else "")
        ++ ". Only text-only decks are supported."
  | .mediaManifest n =>
      "Deck references " ++ toString n
        ++ " media file(s) in manifest. Only text-only decks are supported."
  | .dbAccess => "Could not access database file"
  | .emptyDatabase => "Database file is empty"
  | .invalidHeader => "Database file is not a valid SQLite database"
  | .sqlLoadFailed => "Database could not be loaded by SQL.js"
  | .sqlThrown m => "Database validation failed: " ++ m
  | .missingTables ts => "Not a valid Anki database: missing tables " ++ String.intercalate ", " ts

/-- The result object of `validateApkgFile`: `isValid`, the error kind
when invalid, and `databaseBuffer` on success. -/
structure VResult where
  isValid : Bool
  error : Option VError
  databaseBuffer : Option (List Nat)
deriving DecidableEq

/-- A failing return: `isValid: false` paired with an error. -/
def mkError (e : VError) : VResult := ⟨false, some e, none⟩

/-- `Object.keys(zipContent.files)` — the entry names in order. -/
def foundFiles (arch : Archive) : List String := arch.entries.map (·.name)

/-- `zipContent.file(name)`: the non-directory entry of that name, if
any. -/
def zipFile (arch : Archive) (name : String) : Option ZipEntry :=
  arch.entries.find? fun e => e.name == name && !e.isDir

/-- The predicate of the `foundFiles.find` at part_006 lines 20-27: name
starts with `collection.` and ends with one of the four recognized
database extensions. -/
def isDatabaseFileName (n : String) : Bool :=
  begEq "collection.".toList n.toList &&
    (endEq ".anki2".toList n.toList || endEq ".anki21".toList n.toList ||
     endEq ".anki21b".toList n.toList || endEq ".anki21c".toList n.toList)

/-- The `isAnkiDatabase` helper (part_006 lines 47-56); the two equality
disjuncts are redundant with the suffix tests but kept as in the
source. -/
def isAnkiDatabase (n : String) : Bool :=
  begEq "collection.".toList n.toList &&
    (endEq ".anki2".toList n.toList || endEq ".anki21".toList n.toList ||
     endEq ".anki21b".toList n.toList || endEq ".anki21c".toList n.toList ||
     n == "collection.anki2" || n == "collection.anki21")

/-- The `isSystemFile` helper (part_006 lines 58-62). -/
def isSystemFile (n : String) : Bool :=
  n == "media" || n == "meta" || isAnkiDatabase n

/-- Non-directory entries that are not system files (part_006 lines
65-72). -/
def potentialMediaFiles (arch : Archive) : List String :=
  (arch.entries.filter fun e => !e.isDir && !isSystemFile e.name).map (·.name)

/-- The media names declared by the manifest (part_006 lines 79-100):
`Object.values` of the parsed manifest when its trimmed text looks like
JSON (starts with a brace or bracket) and parses; otherwise the
permissive empty default. -/
def referencedMedia (arch : Archive) (jp : JsonParse) : List String :=
  match zipFile arch "media" with
  | none => []
  | some e =>
    if begEq "\x7b".toList (jsTrim e.text.toList) || begEq "[".toList (jsTrim e.text.toList) then
      match jp e.text with
      | some kvs => kvs.map (·.2)
      | none => []
    else []

/-- The candidate media files actually referenced by the manifest
(part_006 lines 103-105). -/
def actuallyUsedMedia (arch : Archive) (jp : JsonParse) : List String :=
  (potentialMediaFiles arch).filter fun n => (referencedMedia arch jp).contains n

/-- Step 3 of `validateApkgFile` (part_006 lines 64-118): fail when some
candidate media file is actually referenced by the manifest. -/
def step3MediaError (arch : Archive) (jp : JsonParse) : Option VError :=
  if (potentialMediaFiles arch).length > 0 then
    if (actuallyUsedMedia arch jp).length > 0 then
      some (.mediaReferenced (actuallyUsedMedia arch jp))
    else none
  else none

/-- The number of manifest entries (`Object.keys(mediaInfo).length`,
part_006 lines 121-141) when the manifest text looks like JSON and
parses; `none` when absent, binary-looking, or unparseable. -/
def manifestEntryCount (arch : Archive) (jp : JsonParse) : Option Nat :=
  match zipFile arch "media" with
  | none => none
  | some e =>
    if begEq "\x7b".toList (jsTrim e.text.toList) || begEq "[".toList (jsTrim e.text.toList) then
      match jp e.text with
      | some kvs => some kvs.length
      | none => none
    else none

/-- Step 4 of `validateApkgFile` (part_006 lines 120-146): fail when the
manifest declares at least one media entry. -/
def step4ManifestError (arch : Archive) (jp : JsonParse) : Option VError :=
  match manifestEntryCount arch jp with
  | some n => if n > 0 then some (.mediaManifest n) else none
  | none => none

/-- The ASCII bytes of `"SQLite format 3"` — the 15 compared bytes of the
16-byte SQLite magic header (the 16th, the null terminator, is not
compared). -/
def sqliteMagic : List Nat :=
  [83, 81, 76, 105, 116, 101, 32, 102, 111, 114, 109, 97, 116, 32, 51]

/-- Step 6's gate (part_006 lines 166-174):
`headerBytes.slice(0, 15).every((byte, index) => byte === expectedHeader[index])`
where `headerBytes` is the first (up to) 16 bytes of the buffer.
`Array.prototype.every` ranges over the possibly-shorter sliced array, so
a buffer shorter than 15 bytes is compared only on the bytes it has. -/
def isValidSQLiteHeader (bytes : List Nat) : Bool :=
  (((bytes.take 16).take 15).zip sqliteMagic).all fun p => p.1 == p.2

/-- The `missingTables` computation of step 7 (part_006 lines 200-201):
the required Anki tables absent from the loaded database. -/
def missingAnkiTables (tables : List String) : List String :=
  (["cards", "notes", "col"]).filter fun t => !(tables.contains t)

/-- Steps 5-7 of `validateApkgFile` (part_006 lines 148-228): extract the
selected database entry, require nonempty content and a passing header
gate, then hand the bytes to the engine and require the essential Anki
tables. -/
def validateDatabaseSteps (arch : Archive) (se : SqlEngine) (databaseFile : String) : VResult :=
  match zipFile arch databaseFile with
  | none => mkError .dbAccess
  | some dbEntry =>
    if dbEntry.bytes.length == 0 then mkError .emptyDatabase
    else if !isValidSQLiteHeader dbEntry.bytes then mkError .invalidHeader
    else
      match se dbEntry.bytes with
      | .loadNull => mkError .sqlLoadFailed
      | .thrown m => mkError (.sqlThrown m)
      | .loaded tables =>
        if (missingAnkiTables tables).length > 0 then
          mkError (.missingTables (missingAnkiTables tables))
        else { isValid := true, error := none, databaseBuffer := some dbEntry.bytes }

/-- `validateApkgFile` on a successfully loaded archive (part_006 lines
15-228): find the first database-named entry (`MissingDatabase` when
none), require an entry named `media`, run the two media gates, then the
database steps. -/
def validateArchive (arch : Archive) (jp : JsonParse) (se : SqlEngine) : VResult :=
  match (foundFiles arch).find? isDatabaseFileName with
  | none => mkError .missingDatabase
  | some databaseFile =>
    if !((foundFiles arch).contains "media") then mkError .missingMedia
    else
      match step3MediaError arch jp with
      | some er => mkError er
      | none =>
        match step4ManifestError arch jp with
        | some er => mkError er
        | none => validateDatabaseSteps arch se databaseFile

/-- `validateApkgFile` (part_006 lines 9-237).  The input is the outcome
of `zip.loadAsync`: a rejected load (non-ZIP bytes) lands in the
function's top-level catch and yields the catch-all failing result. -/
def validateApkgFile (input : Except String Archive) (jp : JsonParse) (se : SqlEngine) : VResult :=
  match input with
  | .error m => mkError (.zipError m)
  | .ok arch => validateArchive arch jp se

/-- `true` exactly on the two `MediaNotSupported` failure kinds. -/
def isMediaError : VError → Bool
  | .mediaReferenced _ => true
  | .mediaManifest _ => true
  | _ => false

/-- One `stmt.step()` call's outcome inside `executeQuery`
(sqlScriptLoader.js lines 92-108): a yielded row (`getAsObject`) or a
thrown engine error; the end of the list models `step()` returning
false. -/
inductive StepOutcome where
  | row (r : List (String × String))
  | fail (msg : String)
deriving DecidableEq

/-- The engine's behaviour for one prepared query: whether `db.prepare`
succeeds (`.error` models a thrown prepare), and the sequence of step
outcomes. -/
structure QueryBehavior where
  prep : Except String Unit
  steps : List StepOutcome

/-- The `while (stmt.step())` accumulation loop of `executeQuery`: rows
are pushed until `step()` returns false; a thrown step abandons the local
`results` array and the surrounding catch returns the empty list. -/
def collectRows : List StepOutcome → List (List (String × String)) → List (List (String × String))
  | [], acc => acc
  | .row r :: rest, acc => collectRows rest (acc ++ [r])
  | .fail _ :: _, _ => []

/-- `executeQuery` (sqlScriptLoader.js lines 92-108): the whole body is
wrapped in try/catch, so a failed prepare or step yields `[]`; the Lean
model is total by construction, mirroring that no exception escapes. -/
def executeQuery (qb : QueryBehavior) : List (List (String × String)) :=
  match qb.prep with
  | .error _ => []
  | .ok _ => collectRows qb.steps []

/-- The observable resource outcome of one import operation. -/
structure ImportOutcome where
  dbHandleOpened : Bool
  dbHandleClosed : Bool
  parseErr : Option String
deriving DecidableEq

/-- The control flow of `loadAndParseDeck` (part_004 lines 52-100) with
respect to the embedded-database handle opened by `loadAnkiDatabase`.
`validationIsValid` is the `validateApkgFile` outcome (a failing
validation throws before any handle exists); `dbLoadSuccess` is the
`loadAnkiDatabase` outcome (on failure no handle was created, since
`loadDatabase` catches its own errors and returns null); `parseSuccess` is
`parseFullDeck(...).success`.  On parse failure the code throws
(`throw new Error(parsedData.error)`) and lands in the catch/finally
blocks, neither of which calls `dbResult.database.close()`; only the
success path reaches the `close()` at line 92. -/
def loadAndParseDeck (validationIsValid dbLoadSuccess parseSuccess : Bool) : ImportOutcome :=
  if !validationIsValid then
    { dbHandleOpened := false, dbHandleClosed := false, parseErr := some "Validation failed" }
  else if !dbLoadSuccess then
    { dbHandleOpened := false, dbHandleClosed := false, parseErr := some "Database loading failed" }
  else if !parseSuccess then
    { dbHandleOpened := true, dbHandleClosed := false, parseErr := some "parse failed" }
  else
    { dbHandleOpened := true, dbHandleClosed := true, parseErr := none }

/-- A concrete instance of the `JSON.parse` boundary, defined on the two
manifest texts used in the concrete examples below: the empty object and
a one-entry object mapping archive name `0` to `a.jpg`. -/
def sampleJsonParse : JsonParse := fun s =>
  if s = "\x7b\x7d" then some []
  else if s = "\x7b\"0\":\"a.jpg\"\x7d" then some [("0", "a.jpg")]
  else none

/-- A concrete engine instance that loads any buffer and reports the three
essential Anki tables. -/
def sampleSqlEngine : SqlEngine := fun _ => .loaded ["cards", "notes", "col"]

/-- An archive with a manifest but no database-named entry. -/
def archNoDb : Archive := ⟨[⟨"media", false, "\x7b\x7d", []⟩]⟩

/-- An archive with two database-named entries and an empty manifest. -/
def archTwoDbs : Archive :=
  ⟨[⟨"collection.anki2", false, "", sqliteMagic⟩,
    ⟨"collection.anki21", false, "", sqliteMagic⟩,
    ⟨"media", false, "\x7b\x7d", []⟩]⟩

/-- An archive whose database content is the single byte `0x53` (`S`), a
proper prefix of the SQLite magic. -/
def archShortDb : Archive :=
  ⟨[⟨"collection.anki2", false, "", [83]⟩, ⟨"media", false, "\x7b\x7d", []⟩]⟩

/-- A manifest entry declaring one media file that is not present in the
archive. -/
def manifestMediaEntry : ZipEntry := ⟨"media", false, "\x7b\"0\":\"a.jpg\"\x7d", []⟩

/-- An archive whose manifest declares one media file (none structurally
present). -/
def archManifest : Archive :=
  ⟨[⟨"collection.anki2", false, "", sqliteMagic⟩, manifestMediaEntry]⟩

/-- A manifest entry whose content is not JSON. -/
def corruptMediaEntry : ZipEntry := ⟨"media", false, "binarygarbage", []⟩

/-- An archive with a non-JSON manifest and a database that fails the
header gate. -/
def archCorruptBadDb : Archive :=
  ⟨[⟨"collection.anki2", false, "", [99]⟩, corruptMediaEntry]⟩

/-- A pattern occurring at the head of a list occurs in any extension. -/
theorem begEq_self_append (v r : List Char) : begEq v (v ++ r) = true := by
  induction v with
  | nil => rfl
  | cons a as ih => simp [begEq, ih]

/-- A list occurs contiguously at the head of itself followed by anything. -/
theorem containsSeg_self_append (v r : List Char) : containsSeg v (v ++ r) = true := by
  cases v with
  | nil => cases r <;> simp [containsSeg, begEq]
  | cons a as =>
    have h := begEq_self_append (a :: as) r
    simp only [containsSeg]
    rw [show (a :: as) ++ r = a :: (as ++ r) from rfl] at h
    simp [h]

/-- Contiguous occurrence is preserved by prepending a character. -/
theorem containsSeg_cons (v : List Char) (c : Char) (l : List Char)
    (h : containsSeg v l = true) : containsSeg v (c :: l) = true := by
  simp [containsSeg, h]

/-- A nonempty pattern never occurs in the empty string. -/
theorem containsCI_nil (pat : List Char) (hp : pat ≠ []) : containsCI pat [] = false := by
  cases pat with
  | nil => exact absurd rfl hp
  | cons a as => rfl

/-- JS replacement-string processing is the identity on replacement
strings containing no dollar character. -/
theorem getSubstitution_no_dollar (matched pre post : List Char) :
    ∀ repl : List Char, '$' ∉ repl → getSubstitution matched pre post repl = repl := by
  intro repl
  induction repl with
  | nil => intro h; rfl
  | cons c rest ih =>
    intro h
    have hc : ¬(c = '$') := fun hcc => h (hcc ▸ List.mem_cons_self c rest)
    have hr : '$' ∉ rest := fun hm => h (List.mem_cons_of_mem c hm)
    rw [getSubstitution.eq_def]
    simp [hc, ih hr]

/-- Whenever the (nonempty) pattern occurs case-insensitively in the
subject, a dollar-free replacement value appears verbatim in the output
of the fuel-driven global replacement. -/
theorem replaceCIFuel_contains (pat val : List Char) (hp : pat ≠ []) (hval : '$' ∉ val) :
    ∀ (fuel : Nat) (pre s : List Char), s.length ≤ fuel → containsCI pat s = true →
      containsSeg val (replaceCIFuel pat val fuel pre s) = true := by
  intro fuel
  induction fuel with
  | zero =>
    intro pre s hs hc
    have hnil : s = [] := List.eq_nil_of_length_eq_zero (Nat.le_zero.mp hs)
    rw [hnil, containsCI_nil pat hp] at hc
    cases hc
  | succ f ih =>
    intro pre s hs hc
    cases s with
    | nil =>
      rw [containsCI_nil pat hp] at hc
      cases hc
    | cons c cs =>
      by_cases hpre : isPrefixOfCI pat (c :: cs) = true
      · simp only [replaceCIFuel, hpre, if_true]
        rw [getSubstitution_no_dollar _ _ _ val hval]
        exact containsSeg_self_append val _
      · have hpre' : isPrefixOfCI pat (c :: cs) = false := Bool.eq_false_iff.mpr hpre
        simp only [replaceCIFuel, hpre', Bool.false_eq_true, if_false]
        have hc' : containsCI pat cs = true := by
          simpa [containsCI, hpre'] using hc
        have hlen : cs.length ≤ f := by
          simpa using Nat.succ_le_succ_iff.mp hs
        exact containsSeg_cons val c _ (ih (pre ++ [c]) cs hlen hc')

/-- `replaceCI` inserts a dollar-free replacement value verbatim whenever
the pattern occurs. -/
theorem replaceCI_contains (pat val s : List Char) (hp : pat ≠ []) (hval : '$' ∉ val)
    (hc : containsCI pat s = true) : containsSeg val (replaceCI pat val s) = true := by
  unfold replaceCI
  have hemp : pat.isEmpty = false := by
    cases pat with
    | nil => exact absurd rfl hp
    | cons a as => rfl
  simp only [hemp, Bool.false_eq_true, if_false]
  exact replaceCIFuel_contains pat val hp hval s.length [] s (Nat.le_refl _) hc

/-- Unrolling one field of the step-1 fold: substituting the first `i + 1`
fields is the `i`-th field's replacement pass applied to the result of
substituting the first `i`. -/
theorem substituteFields_take_succ (fieldNames fields : List String) (t : List Char)
    (i : Nat) (hi : i < fieldNames.length) :
    substituteFields (fieldNames.take (i + 1)) fields t =
      replaceCI (fieldPlaceholder fieldNames[i]) ((fields.getD i "").toList)
        (substituteFields (fieldNames.take i) fields t) := by
  unfold substituteFields
  have h1 : fieldNames.take (i + 1) = fieldNames.take i ++ [fieldNames[i]] := by
    rw [← List.take_concat_get fieldNames i hi, List.concat_eq_append]
  rw [h1, List.enum_append, List.foldl_append]
  have h3 : (fieldNames.take i).length = i := by
    rw [List.length_take]
    exact Nat.min_eq_left (Nat.le_of_lt hi)
  rw [h3]
  simp [List.enumFrom, List.foldl]

/-- A successful `zipContent.file(name)` lookup implies the name is among
`Object.keys(zipContent.files)`. -/
theorem contains_of_zipFile (arch : Archive) (nm : String) (e : ZipEntry)
    (h : zipFile arch nm = some e) : (foundFiles arch).contains nm = true := by
  unfold zipFile at h
  have hmem := List.mem_of_find?_eq_some h
  have hpred := List.find?_some h
  have hname : e.name = nm := by
    have hb := (Bool.and_eq_true _ _).mp hpred |>.1
    exact eq_of_beq hb
  have hmap : nm ∈ (foundFiles arch) := List.mem_map.mpr ⟨e, hmem, hname⟩
  simpa [List.contains] using List.elem_iff.mpr hmap

/-- The only failure step 3 can produce is the referenced-media error. -/
theorem step3_shape (arch : Archive) (jp : JsonParse) (er : VError)
    (h : step3MediaError arch jp = some er) : ∃ l, er = .mediaReferenced l := by
  unfold step3MediaError at h
  split at h
  · split at h
    · exact ⟨_, (Option.some.injEq _ _ ▸ h.symm)⟩
    · cases h
  · cases h

/-- The only failure step 4 can produce is the manifest-media error. -/
theorem step4_shape (arch : Archive) (jp : JsonParse) (er : VError)
    (h : step4ManifestError arch jp = some er) : ∃ k, er = .mediaManifest k := by
  unfold step4ManifestError at h
  split at h
  · split at h
    · exact ⟨_, (Option.some.injEq _ _ ▸ h.symm)⟩
    · cases h
  · cases h

/-- Every failure of the database steps (5-7) is a non-media error and is
never the missing-database error. -/
theorem vds_error_shape (arch : Archive) (se : SqlEngine) (n : String) (er : VError)
    (h : (validateDatabaseSteps arch se n).error = some er) :
    isMediaError er = false ∧ er ≠ .missingDatabase := by
  unfold validateDatabaseSteps at h
  split at h
  · simp [mkError] at h; subst h; exact ⟨rfl, by simp⟩
  · split at h
    · simp [mkError] at h; subst h; exact ⟨rfl, by simp⟩
    · split at h
      · simp [mkError] at h; subst h; exact ⟨rfl, by simp⟩
      · split at h
        · simp [mkError] at h; subst h; exact ⟨rfl, by simp⟩
        · simp [mkError] at h; subst h; exact ⟨rfl, by simp⟩
        · split at h
          · simp [mkError] at h; subst h; exact ⟨rfl, by simp⟩
          · simp at h

/-- When the database steps succeed, the buffer comes from the looked-up
database entry, is nonempty, and passed the header gate. -/
theorem vds_valid (arch : Archive) (se : SqlEngine) (n : String)
    (h : (validateDatabaseSteps arch se n).isValid = true) :
    ∃ e, zipFile arch n = some e ∧
      (validateDatabaseSteps arch se n).databaseBuffer = some e.bytes ∧
      e.bytes ≠ [] ∧ isValidSQLiteHeader e.bytes = true := by
  unfold validateDatabaseSteps at h ⊢
  rcases heq : zipFile arch n with _ | e
  · rw [heq] at h; simp [mkError] at h
  · rw [heq] at h
    dsimp only at h ⊢
    refine ⟨e, rfl, ?_⟩
    by_cases hlen : (e.bytes.length == 0) = true
    · rw [if_pos hlen] at h; simp [mkError] at h
    · rw [if_neg hlen] at h ⊢
      by_cases hhdr : (!isValidSQLiteHeader e.bytes) = true
      · rw [if_pos hhdr] at h; simp [mkError] at h
      · rw [if_neg hhdr] at h ⊢
        rcases hse : se e.bytes with _ | m | tables
        · rw [hse] at h; simp [mkError] at h
        · rw [hse] at h; simp [mkError] at h
        · rw [hse] at h
          dsimp only at h ⊢
          by_cases hmiss : (missingAnkiTables tables).length > 0
          · rw [if_pos hmiss] at h; simp [mkError] at h
          · rw [if_neg hmiss] at h ⊢
            refine ⟨rfl, ?_, ?_⟩
            · intro hnil
              exact hlen (by simp [hnil])
            · simpa using hhdr

/-- The database steps always produce either a success with no error, or
a failure carrying an error. -/
theorem vds_shape (arch : Archive) (se : SqlEngine) (n : String) :
    ((validateDatabaseSteps arch se n).isValid = true ∧
      (validateDatabaseSteps arch se n).error = none) ∨
    ((validateDatabaseSteps arch se n).isValid = false ∧
      ∃ e, (validateDatabaseSteps arch se n).error = some e) := by
  unfold validateDatabaseSteps
  rcases heq : zipFile arch n with _ | e
  · right; exact ⟨rfl, _, rfl⟩
  · dsimp only
    by_cases hlen : (e.bytes.length == 0) = true
    · rw [if_pos hlen]; right; exact ⟨rfl, _, rfl⟩
    · rw [if_neg hlen]
      by_cases hhdr : (!isValidSQLiteHeader e.bytes) = true
      · rw [if_pos hhdr]; right; exact ⟨rfl, _, rfl⟩
      · rw [if_neg hhdr]
        rcases hse : se e.bytes with _ | m | tables
        · right; exact ⟨rfl, _, rfl⟩
        · right; exact ⟨rfl, _, rfl⟩
        · dsimp only
          by_cases hmiss : (missingAnkiTables tables).length > 0
          · rw [if_pos hmiss]; right; exact ⟨rfl, _, rfl⟩
          · rw [if_neg hmiss]; left; exact ⟨rfl, rfl⟩

/-- On a successfully loaded archive, `validateApkgFile` is the archive
validation body. -/
theorem validateApkgFile_ok (arch : Archive) (jp : JsonParse) (se : SqlEngine) :
    validateApkgFile (.ok arch) jp se = validateArchive arch jp se := rfl

/-- A thrown step inside the accumulation loop discards all rows gathered
so far and yields the empty result. -/
theorem collectRows_fail_mem (m : String) :
    ∀ (l : List StepOutcome) (acc : List (List (String × String))),
      StepOutcome.fail m ∈ l → collectRows l acc = [] := by
  intro l
  induction l with
  | nil => intro acc h; cases h
  | cons x rest ih =>
    intro acc h
    cases x with
    | row r =>
      have hm : StepOutcome.fail m ∈ rest := by
        rcases List.mem_cons.mp h with heq | hmem
        · simp at heq
        · exact hmem
      simpa [collectRows] using ih (acc ++ [r]) hm
    | fail m2 => simp [collectRows]

/-- Pairwise agreement of a zip is the same as agreement of the common
prefix of the two lists. -/
theorem zip_all_beq (l1 l2 : List Nat) :
    (((l1.zip l2).all fun p => p.1 == p.2) = true) ↔ l1.take l2.length = l2.take l1.length := by
  induction l1 generalizing l2 with
  | nil => simp
  | cons a as ih =>
    cases l2 with
    | nil => simp
    | cons b bs =>
      simp [List.all_cons, ih bs, List.take_succ_cons, List.cons.injEq]

/-- C10: the archive validation function is total over its input: for
every input (a rejected ZIP load or any loaded archive) and any behaviour
of the JSON and SQL boundaries, it returns a result whose `isValid` field
is a boolean, carrying an error exactly when `isValid` is false; no
exception escapes (the Lean model is total by construction, mirroring the
JS top-level try/catch). -/
theorem c10_validator_total (input : Except String Archive) (jp : JsonParse) (se : SqlEngine) :
    ((validateApkgFile input jp se).isValid = true ∧
      (validateApkgFile input jp se).error = none) ∨
    ((validateApkgFile input jp se).isValid = false ∧
      ∃ e, (validateApkgFile input jp se).error = some e) := by
  cases input with
  | error m => right; exact ⟨rfl, _, rfl⟩
  | ok arch =>
    rw [validateApkgFile_ok]
    unfold validateArchive
    rcases hdb : (foundFiles arch).find? isDatabaseFileName with _ | n
    · right; exact ⟨rfl, _, rfl⟩
    · dsimp only
      by_cases hm : (!((foundFiles arch).contains "media")) = true
      · rw [if_pos hm]; right; exact ⟨rfl, _, rfl⟩
      · rw [if_neg hm]
        rcases h3 : step3MediaError arch jp with _ | er
        · rcases h4 : step4ManifestError arch jp with _ | er
          · exact vds_shape arch se n
          · right; exact ⟨rfl, _, rfl⟩
        · right; exact ⟨rfl, _, rfl⟩

/-- C3 (amended): archive validation requires at least one entry whose
name matches the database pattern — with no such entry it fails with the
missing-database error; but with more than one such entry it does not
fail: it silently proceeds with the first matching entry (in archive
order), whose bytes become the database buffer on success. -/
theorem c3_amended (arch : Archive) (jp : JsonParse) (se : SqlEngine) :
    ((foundFiles arch).find? isDatabaseFileName = none →
      validateApkgFile (.ok arch) jp se = mkError .missingDatabase) ∧
    ∀ n, (foundFiles arch).find? isDatabaseFileName = some n →
      (validateApkgFile (.ok arch) jp se).error ≠ some .missingDatabase ∧
      ((validateApkgFile (.ok arch) jp se).isValid = true →
        ∃ e, zipFile arch n = some e ∧
          (validateApkgFile (.ok arch) jp se).databaseBuffer = some e.bytes) := by
  rw [validateApkgFile_ok]
  unfold validateArchive
  constructor
  · intro h
    rw [h]
  · intro n h
    rw [h]
    dsimp only
    by_cases hm : (!((foundFiles arch).contains "media")) = true
    · rw [if_pos hm]
      refine ⟨by simp [mkError], ?_⟩
      intro hv
      simp [mkError] at hv
    · rw [if_neg hm]
      rcases h3 : step3MediaError arch jp with _ | er
      · rcases h4 : step4ManifestError arch jp with _ | er
        · refine ⟨?_, ?_⟩
          · intro hc
            exact (vds_error_shape arch se n _ hc).2 rfl
          · intro hv
            obtain ⟨e, he, hb, _, _⟩ := vds_valid arch se n hv
            exact ⟨e, he, hb⟩
        · obtain ⟨k, rfl⟩ := step4_shape arch jp er h4
          refine ⟨by simp [mkError], ?_⟩
          intro hv
          simp [mkError] at hv
      · obtain ⟨l, rfl⟩ := step3_shape arch jp er h3
        refine ⟨by simp [mkError], ?_⟩
        intro hv
        simp [mkError] at hv

/-- C3 counterexample: an archive with two database-named entries
(`collection.anki2` and `collection.anki21`) is accepted — validation
does not fail on multiple matches, refuting the claim's
"exactly one" requirement. -/
theorem c3_counterexample :
    ((foundFiles archTwoDbs).filter isDatabaseFileName).length = 2 ∧
    (validateApkgFile (.ok archTwoDbs) sampleJsonParse sampleSqlEngine).isValid = true := by
  decide

/-- C3 witness: the amended theorem applied to a concrete archive with no
database entry (missing-database error) and to the concrete two-database
archive (no missing-database error). -/
theorem c3_witness :
    validateApkgFile (.ok archNoDb) sampleJsonParse sampleSqlEngine = mkError .missingDatabase ∧
    (validateApkgFile (.ok archTwoDbs) sampleJsonParse sampleSqlEngine).error ≠
      some .missingDatabase := by
  constructor
  · exact (c3_amended archNoDb sampleJsonParse sampleSqlEngine).1 (by decide)
  · exact ((c3_amended archTwoDbs sampleJsonParse sampleSqlEngine).2 "collection.anki2"
      (by decide)).1

/-- C4: for every archive that reaches the media gates (its entry list has
a database-named entry and a readable `media` entry) whose manifest text
looks like JSON and parses to at least one entry, validation fails, with
one of the two media-not-supported errors — regardless of whether any of
the named media files is structurally present in the archive. -/
theorem c4_manifest_media_rejected (arch : Archive) (jp : JsonParse) (se : SqlEngine)
    (n : String) (e : ZipEntry) (kvs : List (String × String))
    (hdb : (foundFiles arch).find? isDatabaseFileName = some n)
    (hmedia : zipFile arch "media" = some e)
    (hjson : (begEq "\x7b".toList (jsTrim e.text.toList) ||
              begEq "[".toList (jsTrim e.text.toList)) = true)
    (hparse : jp e.text = some kvs)
    (hne : kvs ≠ []) :
    (validateApkgFile (.ok arch) jp se).isValid = false ∧
    ∃ er, (validateApkgFile (.ok arch) jp se).error = some er ∧ isMediaError er = true := by
  have hc : (foundFiles arch).contains "media" = true := contains_of_zipFile arch "media" e hmedia
  rw [validateApkgFile_ok]
  unfold validateArchive
  rw [hdb]
  dsimp only
  rw [if_neg (by rw [hc]; simp)]
  rcases h3 : step3MediaError arch jp with _ | er
  · have h4 : step4ManifestError arch jp = some (.mediaManifest kvs.length) := by
      unfold step4ManifestError manifestEntryCount
      rw [hmedia]
      dsimp only
      rw [if_pos hjson, hparse]
      dsimp only
      rw [if_pos (List.length_pos.mpr hne)]
    rw [h4]
    exact ⟨rfl, .mediaManifest kvs.length, rfl, rfl⟩
  · obtain ⟨l, rfl⟩ := step3_shape arch jp er h3
    exact ⟨rfl, .mediaReferenced l, rfl, rfl⟩

/-- C4 witness: the theorem applied to a concrete archive whose manifest
declares one media file that is not structurally present. -/
theorem c4_witness :
    (validateApkgFile (.ok archManifest) sampleJsonParse sampleSqlEngine).isValid = false ∧
    ∃ er, (validateApkgFile (.ok archManifest) sampleJsonParse sampleSqlEngine).error = some er ∧
      isMediaError er = true :=
  c4_manifest_media_rejected archManifest sampleJsonParse sampleSqlEngine
    "collection.anki2" manifestMediaEntry [("0", "a.jpg")]
    (by decide) (by decide) (by decide) (by decide) (by decide)

/-- C5: for every archive whose `media` entry is present but whose content
does not look like JSON or does not parse, the manifest is treated as
declaring no media references (`referencedMedia` is empty) and validation
never fails with a media error for that reason — any failure it still
reports is a non-media one. -/
theorem c5_corrupt_manifest_permissive (arch : Archive) (jp : JsonParse) (se : SqlEngine)
    (e : ZipEntry)
    (hmedia : zipFile arch "media" = some e)
    (hbad : (begEq "\x7b".toList (jsTrim e.text.toList) ||
             begEq "[".toList (jsTrim e.text.toList)) = false ∨ jp e.text = none) :
    referencedMedia arch jp = [] ∧
    ∀ er, (validateApkgFile (.ok arch) jp se).error = some er → isMediaError er = false := by
  have href : referencedMedia arch jp = [] := by
    unfold referencedMedia
    rw [hmedia]
    dsimp only
    rcases hbad with hb | hb
    · rw [if_neg (by rw [hb]; simp)]
    · by_cases hcond : (begEq "\x7b".toList (jsTrim e.text.toList) ||
          begEq "[".toList (jsTrim e.text.toList)) = true
      · rw [if_pos hcond, hb]
      · rw [if_neg hcond]
  have h3 : step3MediaError arch jp = none := by
    unfold step3MediaError actuallyUsedMedia
    rw [href]
    simp
  have h4 : step4ManifestError arch jp = none := by
    unfold step4ManifestError manifestEntryCount
    rw [hmedia]
    dsimp only
    rcases hbad with hb | hb
    · rw [if_neg (by rw [hb]; simp)]
    · by_cases hcond : (begEq "\x7b".toList (jsTrim e.text.toList) ||
          begEq "[".toList (jsTrim e.text.toList)) = true
      · rw [if_pos hcond, hb]
      · rw [if_neg hcond]
  refine ⟨href, ?_⟩
  intro er her
  rw [validateApkgFile_ok] at her
  unfold validateArchive at her
  rcases hdb : (foundFiles arch).find? isDatabaseFileName with _ | n
  · rw [hdb] at her
    simp [mkError] at her
    subst her
    rfl
  · rw [hdb] at her
    dsimp only at her
    by_cases hm : (!((foundFiles arch).contains "media")) = true
    · rw [if_pos hm] at her
      simp [mkError] at her
      subst her
      rfl
    · rw [if_neg hm] at her
      rw [h3] at her
      dsimp only at her
      rw [h4] at her
      dsimp only at her
      exact (vds_error_shape arch se n er her).1

/-- C5 witness: the theorem applied to a concrete archive with a non-JSON
manifest; its validation failure is the (non-media) invalid-header
error. -/
theorem c5_witness :
    isMediaError VError.invalidHeader = false ∧
    (validateApkgFile (.ok archCorruptBadDb) sampleJsonParse sampleSqlEngine).error =
      some VError.invalidHeader := by
  constructor
  · exact (c5_corrupt_manifest_permissive archCorruptBadDb sampleJsonParse sampleSqlEngine
      corruptMediaEntry (by decide) (Or.inl (by decide))).2 VError.invalidHeader (by decide)
  · decide

/-- Glue lemma: a successfully validated archive yields its buffer from
the looked-up database entry with a passing header gate. -/
theorem validateArchive_valid (arch : Archive) (jp : JsonParse) (se : SqlEngine)
    (hv : (validateArchive arch jp se).isValid = true) :
    ∃ n e, zipFile arch n = some e ∧
      (validateArchive arch jp se).databaseBuffer = some e.bytes ∧
      e.bytes ≠ [] ∧ isValidSQLiteHeader e.bytes = true := by
  unfold validateArchive at hv ⊢
  rcases hdb : (foundFiles arch).find? isDatabaseFileName with _ | n
  · rw [hdb] at hv
    simp [mkError] at hv
  · rw [hdb] at hv
    dsimp only at hv ⊢
    by_cases hm : (!((foundFiles arch).contains "media")) = true
    · rw [if_pos hm] at hv
      simp [mkError] at hv
    · rw [if_neg hm] at hv ⊢
      rcases h3 : step3MediaError arch jp with _ | er
      · rw [h3] at hv
        dsimp only at hv ⊢
        rcases h4 : step4ManifestError arch jp with _ | er
        · rw [h4] at hv
          dsimp only at hv ⊢
          obtain ⟨e, he, hb, hne, hhdr⟩ := vds_valid arch se n hv
          exact ⟨n, e, he, hb, hne, hhdr⟩
        · rw [h4] at hv
          simp [mkError] at hv
      · rw [h3] at hv
        simp [mkError] at hv

/-- The header gate passes exactly when the buffer's first fifteen bytes
agree with the corresponding prefix of the SQLite magic (for buffers
shorter than fifteen bytes only the bytes present are compared). -/
theorem header_take_iff (bytes : List Nat) :
    isValidSQLiteHeader bytes = true ↔ bytes.take 15 = sqliteMagic.take bytes.length := by
  unfold isValidSQLiteHeader
  rw [List.take_take, show min 15 16 = 15 by decide, zip_all_beq,
    show sqliteMagic.length = 15 from rfl, List.take_take,
    show min 15 15 = 15 by decide, List.length_take]
  have hmg : sqliteMagic.take (min 15 bytes.length) = sqliteMagic.take bytes.length := by
    rcases Nat.le_total bytes.length 15 with hle | hle
    · rw [Nat.min_eq_right hle]
    · rw [Nat.min_eq_left hle,
        List.take_of_length_le (by decide : sqliteMagic.length ≤ 15),
        List.take_of_length_le (le_trans (by decide : sqliteMagic.length ≤ 15) hle)]
  rw [hmg]

/-- C6 (amended): the header gate compares the first `min(length, 15)`
bytes of the database buffer against the SQLite magic: it passes iff those
bytes form the corresponding prefix of `"SQLite format 3"` (the 16th byte
is never compared).  For buffers of at least fifteen bytes this is exactly
first-15-byte equality with the magic, but a shorter nonempty buffer that
is a proper prefix of the magic also passes.  Consequently every
successfully validated archive yields a nonempty buffer whose first
`min(length, 15)` bytes are a prefix of the magic — not necessarily the
full fifteen. -/
theorem c6_amended :
    (∀ bytes : List Nat,
      (isValidSQLiteHeader bytes = true ↔ bytes.take 15 = sqliteMagic.take bytes.length) ∧
      (15 ≤ bytes.length → (isValidSQLiteHeader bytes = true ↔ bytes.take 15 = sqliteMagic))) ∧
    (∀ (arch : Archive) (jp : JsonParse) (se : SqlEngine),
      (validateApkgFile (.ok arch) jp se).isValid = true →
      ∃ buf, (validateApkgFile (.ok arch) jp se).databaseBuffer = some buf ∧
        buf ≠ [] ∧ buf.take 15 = sqliteMagic.take buf.length) := by
  constructor
  · intro bytes
    refine ⟨header_take_iff bytes, ?_⟩
    intro hlen
    rw [header_take_iff bytes,
      List.take_of_length_le (le_trans (by decide : sqliteMagic.length ≤ 15) hlen)]
  · intro arch jp se hv
    rw [validateApkgFile_ok] at hv ⊢
    obtain ⟨n, e, he, hb, hne, hhdr⟩ := validateArchive_valid arch jp se hv
    exact ⟨e.bytes, hb, hne, (header_take_iff e.bytes).mp hhdr⟩

/-- C6 counterexample: an archive whose database content is the single
byte `0x53` (`S`) passes the header gate and validates successfully (with
an engine that accepts it), yet its first fifteen bytes do not equal the
magic string — refuting the claimed if-and-only-if 15-byte comparison. -/
theorem c6_counterexample :
    (validateApkgFile (.ok archShortDb) sampleJsonParse sampleSqlEngine).isValid = true ∧
    (validateApkgFile (.ok archShortDb) sampleJsonParse sampleSqlEngine).databaseBuffer =
      some [83] ∧
    isValidSQLiteHeader [83] = true ∧ ([83] : List Nat).take 15 ≠ sqliteMagic := by
  decide

/-- C6 witness: the amended equivalence applied to a concrete 16-byte
buffer (the magic followed by the null terminator). -/
theorem c6_witness : isValidSQLiteHeader (sqliteMagic ++ [0]) = true := by
  have h := (c6_amended.1 (sqliteMagic ++ [0])).2 (by decide)
  exact h.mpr (by decide)

/-- C7: the status derivation maps queue 0 to New, 1 to Learning, 2 to
Review, -1 to Suspended, -2 to Buried (scheduler), -3 to Buried (user),
and every other integer q to the string `Unknown (q)`, preserving the
numeric value for display. -/
theorem c7_card_status :
    getCardStatus 0 = "New" ∧ getCardStatus 1 = "Learning" ∧ getCardStatus 2 = "Review" ∧
    getCardStatus (-1) = "Suspended" ∧ getCardStatus (-2) = "Buried (scheduler)" ∧
    getCardStatus (-3) = "Buried (user)" ∧
    ∀ q : Int, q ≠ 0 → q ≠ 1 → q ≠ 2 → q ≠ -1 → q ≠ -2 → q ≠ -3 →
      getCardStatus q = "Unknown (" ++ toString q ++ ")" := by
  refine ⟨by decide, by decide, by decide, by decide, by decide, by decide, ?_⟩
  intro q h0 h1 h2 h3 h4 h5
  simp [getCardStatus, h0, h1, h2, h3, h4, h5]

/-- C7 witness: the spec's two examples, queue 7 and queue -2. -/
theorem c7_witness :
    getCardStatus 7 = "Unknown (7)" ∧ getCardStatus (-2) = "Buried (scheduler)" := by
  constructor
  · exact (c7_card_status.2.2.2.2.2.2 7 (by decide) (by decide) (by decide) (by decide)
      (by decide) (by decide)).trans (by decide)
  · exact c7_card_status.2.2.2.2.1

/-- C8: evaluation of the import operation's control flow at the failing
input — validation succeeds, the database loads (the handle is opened),
and the parse fails: the operation ends with the handle still open,
because only the success path reaches `close()`; the success path does
close it. -/
theorem c8_handle_leak_on_parse_failure :
    (loadAndParseDeck true true false).dbHandleOpened = true ∧
    (loadAndParseDeck true true false).dbHandleClosed = false ∧
    (loadAndParseDeck true true true).dbHandleClosed = true := by decide

/-- C9: query execution never propagates an exception (the model returns
a plain list by construction, mirroring the JS try/catch): a failed
prepare yields the empty result set, and a thrown step anywhere in the
step sequence yields the empty result set as well. -/
theorem c9_query_failure_empty (qb : QueryBehavior) :
    ((∃ m, qb.prep = .error m) → executeQuery qb = []) ∧
    (∀ m, StepOutcome.fail m ∈ qb.steps → executeQuery qb = []) := by
  constructor
  · rintro ⟨m, hm⟩
    simp [executeQuery, hm]
  · intro m hm
    unfold executeQuery
    cases hp : qb.prep with
    | error e => rfl
    | ok u => exact collectRows_fail_mem m qb.steps [] hm

/-- C9 witness: the theorem applied to a concrete behaviour where the
second step throws after one row was already gathered. -/
theorem c9_witness :
    executeQuery ⟨Except.ok (), [StepOutcome.row [("name", "cards")],
      StepOutcome.fail "no such table"]⟩ = [] :=
  (c9_query_failure_empty _).2 "no such table" (by decide)

set_option maxRecDepth 8192 in
/-- C1 (amended): with front template `{{A}}` and field A equal to the
literal `{{FrontSide}}`, rendering the front (no frontContent) does not
leave the token literal: the step-5 cleanup rewrites the field-injected
`{{FrontSide}}` into the missing-field marker; rendering the back template
`{{FrontSide}}-{{A}}` with that front output then substitutes it at both
`{{FrontSide}}` occurrences — the template's own and the field-injected
one — not exactly once. -/
theorem c1_amended :
    processAnkiTemplate "\x7b\x7bA\x7d\x7d" ["\x7b\x7bFrontSide\x7d\x7d"] ["A"] "" =
      String.mk missingFieldSpan ∧
    processAnkiTemplate "\x7b\x7bFrontSide\x7d\x7d-\x7b\x7bA\x7d\x7d" ["\x7b\x7bFrontSide\x7d\x7d"]
      ["A"] (processAnkiTemplate "\x7b\x7bA\x7d\x7d" ["\x7b\x7bFrontSide\x7d\x7d"] ["A"] "") =
      String.mk missingFieldSpan ++ "-" ++ String.mk missingFieldSpan := by decide

set_option maxRecDepth 8192 in
/-- C1 counterexample: the front rendering is not the literal
`{{FrontSide}}` string, and rendering the back with the claim's expected
front output `{{FrontSide}}` produces an output that does not contain that
front output even once. -/
theorem c1_counterexample :
    processAnkiTemplate "\x7b\x7bA\x7d\x7d" ["\x7b\x7bFrontSide\x7d\x7d"] ["A"] "" ≠
      "\x7b\x7bFrontSide\x7d\x7d" ∧
    containsSeg "\x7b\x7bFrontSide\x7d\x7d".toList
      (processAnkiTemplate "\x7b\x7bFrontSide\x7d\x7d-\x7b\x7bA\x7d\x7d"
        ["\x7b\x7bFrontSide\x7d\x7d"] ["A"] "\x7b\x7bFrontSide\x7d\x7d").toList = false := by
  decide

/-- C2 (amended): step 1 processes the field list in order; for every
field-name list, field-value list and index `i`, the `i`-th substitution
pass replaces every case-insensitive occurrence of the `i`-th placeholder
in the intermediate string with the field's value, and when that value
contains no dollar character it is inserted as-is (no HTML escaping) —
it appears byte-for-byte in the intermediate result right after its own
pass.  The function's final output need not contain it: later fields'
passes and the cloze/cleanup steps can rewrite inserted values containing
`{{...}}` tokens, and a value containing a dollar is subject to JS
replacement-string processing (`getSubstitution`) rather than inserted
as-is — see the counterexample for both. -/
theorem c2_field_substitution_pass (fieldNames fields : List String) (i : Nat) (t : List Char)
    (hi : i < fieldNames.length)
    (hdollar : '$' ∉ (fields.getD i "").toList)
    (hocc : containsCI (fieldPlaceholder fieldNames[i])
      (substituteFields (fieldNames.take i) fields t) = true) :
    containsSeg ((fields.getD i "").toList)
      (substituteFields (fieldNames.take (i + 1)) fields t) = true := by
  rw [substituteFields_take_succ fieldNames fields t i hi]
  refine replaceCI_contains _ _ _ ?_ hdollar hocc
  simp [fieldPlaceholder]

set_option maxRecDepth 8192 in
/-- C2 counterexample: three failures of the original claim.  With field
A whose value is the literal `{{B}}`, the function's output does not
contain the value byte-for-byte (the step-5 cleanup rewrote it into the
missing-field marker); with the two-field list A, B and values `{{B}}`,
`x`, the later field's pass rewrites the first value, so even the step-1
output lacks it; and a value containing the JS replacement pattern
dollar-ampersand is not inserted as-is — the substitution step emits the
matched text `{{A}}` instead of the value. -/
theorem c2_counterexample :
    containsSeg "\x7b\x7bB\x7d\x7d".toList
      (processAnkiTemplate "\x7b\x7bA\x7d\x7d" ["\x7b\x7bB\x7d\x7d"] ["A"] "").toList =
      false ∧
    containsSeg "\x7b\x7bB\x7d\x7d".toList
      (substituteFields ["A", "B"] ["\x7b\x7bB\x7d\x7d", "x"]
        "\x7b\x7bA\x7d\x7d".toList) = false ∧
    containsSeg "$&".toList
      (substituteFields ["A"] ["$&"] "\x7b\x7bA\x7d\x7d".toList) = false ∧
    substituteFields ["A"] ["$&"] "\x7b\x7bA\x7d\x7d".toList =
      "\x7b\x7bA\x7d\x7d".toList := by decide

/-- C2 witness: the amended theorem applied to the two-field list A, B
with values `V`, `W` at index 1: the second pass inserts `W` into the
result of the first pass. -/
theorem c2_witness :
    containsSeg "W".toList
      (substituteFields (["A", "B"].take 2) ["V", "W"]
        "x\x7b\x7ba\x7d\x7d-\x7b\x7bB\x7d\x7dy".toList) = true :=
  c2_field_substitution_pass ["A", "B"] ["V", "W"] 1 _ (by decide) (by decide) (by decide)
